import Mathlib

/-!
Shallow embedding of `src/download_espa_order.py`, the ESPA bulk download
client, and proofs about the behaviours its specification describes.

The script has three parts, each embedded below:
* the feed reader (`SceneFeed.get_items`, lines 84-115): parses a feed,
  checks its HTTP status, and yields `Scene` records filtered by order id;
* the storage manager (`LocalStorage`, lines 132-225): path computation,
  the `store` routine with HEAD probe, resume offset, ranged-GET download
  loop and rename-on-completion, and the `_download` helper (which reads
  the name `scene` from the module scope, not from an argument);
* the driving loop (`__main__`, lines 291-313): per-scene retry loop of at
  most 5 attempts around a `multiprocessing.Process` based timeout.

Environment inputs (the filesystem, the remote server's bytes, and the way
each HTTP response stream behaves) are passed explicitly: `FS` models the
on-disk state, `Server` maps a URL to the bytes the remote host serves, and
a `Transfer` oracle says, for each ranged GET the loop issues, how many
bytes the response stream delivers and whether it then raises.
-/

namespace Espa

/-- os.sep of the host platform, modelled as the POSIX separator. -/
def osSep : String := "/"

/-- One feed entry as feedparser presents it: `entry.link`,
`entry.description` and `entry['id']`. -/
structure Entry where
  link : String
  description : String
  entryId : String
deriving Repr, DecidableEq

/-- The parsed feed: HTTP status of the response and the entry list. -/
structure Feed where
  status : Nat
  entries : List Entry
deriving Repr, DecidableEq

/-- A `Scene` record (lines 118-129).  `filename` and `name` are derived
from `srcurl` by the constructor and are modelled as functions below. -/
structure Scene where
  srcurl : String
  orderid : String
  filenum : Nat
  numfiles : Nat
deriving Repr, DecidableEq

/-- Python str.split with a non-empty separator, on character lists: scan
left to right, cutting at each non-overlapping occurrence of `sep`.  The
structural fuel (any value at least the length of `l`) keeps the
recursion kernel-computable. -/
def pySplitAux (sep : List Char) (fuel : Nat) (l acc : List Char) :
    List (List Char) :=
  match fuel with
  | 0 => [acc.reverse ++ l]
  | Nat.succ f =>
    match l with
    | [] => [acc.reverse]
    | c :: rest =>
      if sep.isPrefixOf (c :: rest) && !sep.isEmpty then
        acc.reverse :: pySplitAux sep f (List.drop (sep.length - 1) rest) []
      else pySplitAux sep f rest (c :: acc)

/-- Python `s.split(sep)` for a non-empty separator `sep`. -/
def pySplit (s sep : String) : List String :=
  (pySplitAux sep.toList (s.toList.length + 1) s.toList []).map
    (fun chars => String.mk chars)

/-- Line 124-125: `parts = srcurl.split("/"); filename = parts[len(parts)-1]`. -/
def Scene.filename (s : Scene) : String :=
  (pySplit s.srcurl "/").getLastD ""

/-- Line 127: `name = filename.split('.tar.gz')[0]`. -/
def Scene.name (s : Scene) : String :=
  (pySplit (Scene.filename s) ".tar.gz").headD ""

/-- How a run of the feed generator ends: the entry loop completes, the
script calls `exit()` (modelled with the process exit status it produces),
or an uncaught exception is raised. -/
inductive Terminator where
  | completed
  | exited (code : Nat)
  | raised (msg : String)
deriving Repr, DecidableEq

/-- Exit status carried by a `Terminator.exited`, if any. -/
def Terminator.exitCode : Terminator → Option Nat
  | Terminator.exited c => some c
  | _ => none

/-- What consuming the whole `get_items` generator produces: the scenes it
yielded, in order, and how it ended. -/
structure FeedOutcome where
  yielded : List Scene
  terminator : Terminator
deriving Repr, DecidableEq

/-- Line 111: `entry.description.split(',')[1].split(':')[1]`; `none` when
either indexing would raise IndexError. -/
def parseSceneOrder (description : String) : Option String :=
  match (pySplit description ",")[1]? with
  | none => none
  | some field => (pySplit field ":")[1]?

/-- Python substring containment `needle in hay`. -/
def strContains (hay needle : String) : Bool :=
  (List.range (hay.toList.length + 1)).any
    (fun i => needle.toList.isPrefixOf (hay.toList.drop i))

/-- Lines 95-97: `num_downloads`, the count printed and stored in each
Scene's `numfiles`; for a specific order it counts entries whose `id`
contains the order id as a substring. -/
def numDownloads (feed : Feed) (orderid : String) : Nat :=
  if orderid ≠ "ALL" then
    (feed.entries.filter (fun e => strContains e.entryId orderid)).length
  else feed.entries.length

/-- Lines 108-115: the entry loop of `get_items`.  `idx` is the 0-based
index `enumerate` supplies for the current head entry.  A malformed
description raises IndexError, ending the generator after the scenes
already yielded. -/
def yieldScenes (entries : List Entry) (orderid : String) (num idx : Nat) :
    List Scene × Terminator :=
  match entries with
  | [] => ([], Terminator.completed)
  | e :: rest =>
    match parseSceneOrder e.description with
    | none => ([], Terminator.raised "IndexError")
    | some so =>
      let tail := yieldScenes rest orderid num (idx + 1)
      if orderid == "ALL" || so == orderid then
        (⟨e.link, so, idx + 1, num⟩ :: tail.1, tail.2)
      else tail

/-- Lines 84-115: `SceneFeed.get_items`.  The feed itself (the result of
`feedparser.parse` on the feed URL) is an environment input.  On status
403 or 404 the script prints a message and calls `exit()` with no
argument, which terminates the process with exit status 0, before the
entry loop and hence before any scene is yielded. -/
def SceneFeed.get_items (feed : Feed) (orderid : String) : FeedOutcome :=
  let num := numDownloads feed orderid
  if feed.status = 403 then ⟨[], Terminator.exited 0⟩
  else if feed.status = 404 then ⟨[], Terminator.exited 0⟩
  else
    let p := yieldScenes feed.entries orderid num 0
    ⟨p.1, p.2⟩

/-- A file on disk: its bytes and a modification timestamp (so that the
claim "bytes and timestamps unchanged" is expressible). -/
structure File where
  content : List Nat
  mtime : Nat
deriving Repr, DecidableEq

/-- The filesystem state: regular files (path, file) and created
directories.  The association list is private model state; paths are the
observable keys. -/
structure FS where
  files : List (String × File)
  dirs : List String
deriving Repr, DecidableEq

/-- Content of the file at path `p`, if one exists. -/
def FS.getFile? (fs : FS) (p : String) : Option File :=
  (fs.files.find? (fun q => q.1 == p)).map (fun q => q.2)

/-- Whether a regular file exists at `p`. -/
def FS.fileExists (fs : FS) (p : String) : Bool :=
  (fs.getFile? p).isSome

/-- os.path.exists: true for a regular file or a directory at `p`. -/
def FS.pathExists (fs : FS) (p : String) : Bool :=
  fs.fileExists p || fs.dirs.any (fun q => q == p)

/-- os.path.getsize of the file at `p` (0 when absent; the script only
calls it on paths it has just checked or created). -/
def FS.getsize (fs : FS) (p : String) : Nat :=
  (((fs.getFile? p).getD ⟨[], 0⟩).content).length

/-- Replace or create the file at `p`. -/
def FS.setFile (fs : FS) (p : String) (f : File) : FS :=
  ⟨(p, f) :: fs.files.filter (fun q => !(q.1 == p)), fs.dirs⟩

/-- Delete the file at `p`, if present. -/
def FS.removeFile (fs : FS) (p : String) : FS :=
  ⟨fs.files.filter (fun q => !(q.1 == p)), fs.dirs⟩

/-- Open `p` in mode 'ab' (creating it empty when absent) and append
`bs`; the write updates the file's mtime to `now`. -/
def FS.appendBytes (fs : FS) (p : String) (bs : List Nat) (now : Nat) : FS :=
  let old := (fs.getFile? p).getD ⟨[], 0⟩
  fs.setFile p ⟨old.content ++ bs, now⟩

/-- os.rename: move the file at `src` to `dst` (the caller checks that
`src` exists; an attempt on a missing `src` raises, which `store` below
reports through its `uncaught` flag). -/
def FS.rename (fs : FS) (src dst : String) : FS :=
  match fs.getFile? src with
  | none => fs
  | some f => (fs.removeFile src).setFile dst f

/-- os.makedirs. -/
def FS.makeDir (fs : FS) (d : String) : FS :=
  ⟨fs.files, fs.dirs ++ [d]⟩

/-- The remote host: the bytes served at each URL.  A HEAD probe reports
the Content-Length, i.e. the length of those bytes. -/
structure Server where
  files : List (String × List Nat)
deriving Repr, DecidableEq

/-- Bytes the server serves at `url` (the empty list for an unknown URL;
the theorems below fix the served content by hypothesis). -/
def Server.contentAt (sv : Server) (url : String) : List Nat :=
  ((sv.files.find? (fun q => q.1 == url)).map (fun q => q.2)).getD []

/-- Observable network calls the storage manager issues. -/
inductive NetEvent where
  | head (url : String)
  | rangedGet (url : String) (offset : Nat)
deriving Repr, DecidableEq

/-- Oracle for one ranged GET of the download loop: the response stream
either delivers `n` bytes (clamped to what remains past the requested
offset) and then ends cleanly, or delivers `n` bytes and then raises an
exception carrying message `msg` (a closed connection, a timeout, ...). -/
inductive Transfer where
  | delivers (n : Nat)
  | raises (msg : String) (n : Nat)
deriving Repr, DecidableEq

/-- The storage manager (line 132): only carries the base directory. -/
structure LocalStorage where
  basedir : String
deriving Repr, DecidableEq

/-- Lines 137-138: `basedir + os.sep + scene.orderid + os.sep`. -/
def LocalStorage.directory_path (st : LocalStorage) (s : Scene) : String :=
  st.basedir ++ osSep ++ s.orderid ++ osSep

/-- Lines 140-141: the completed file's path. -/
def LocalStorage.scene_path (st : LocalStorage) (s : Scene) : String :=
  st.directory_path s ++ Scene.filename s

/-- Lines 143-144: the partial file's path. -/
def LocalStorage.tmp_scene_path (st : LocalStorage) (s : Scene) : String :=
  st.directory_path s ++ Scene.filename s ++ ".part"

/-- Lines 146-147: `os.path.exists(self.scene_path(scene))`. -/
def LocalStorage.is_stored (st : LocalStorage) (fs : FS) (s : Scene) : Bool :=
  fs.pathExists (st.scene_path s)

/-- Lines 168-170: the resume offset `first_byte` — the size of the
existing partial file, or 0 when none exists. -/
def LocalStorage.resumeOffset (st : LocalStorage) (fs : FS) (s : Scene) : Nat :=
  if fs.pathExists (st.tmp_scene_path s) then fs.getsize (st.tmp_scene_path s)
  else 0

/-- Lines 201-212 (and equivalently 216-224): `_download`.  The body never
uses a scene parameter: the name `scene` inside it resolves to the module
global bound by the `for scene in sf:` loop of `__main__`, here passed
explicitly as `globalScene`.  It issues a ranged GET for
`bytes=firstByte-` on the global scene's URL, appends the bytes the
response delivers to the global scene's partial path (mode 'ab'), and
returns `os.path.getsize` of that partial path — or raises, when the
transfer oracle says the stream failed mid-copy (the bytes already
streamed stay appended). -/
def LocalStorage._download (st : LocalStorage) (globalScene : Scene)
    (sv : Server) (t : Transfer) (firstByte : Nat) (fs : FS) (now : Nat) :
    Except String Nat × FS × NetEvent :=
  let url := globalScene.srcurl
  let remaining := (sv.contentAt url).drop firstByte
  let tmp := st.tmp_scene_path globalScene
  match t with
  | Transfer.delivers n =>
      let fs1 := fs.appendBytes tmp (remaining.take n) now
      (Except.ok (fs1.getsize tmp), fs1, NetEvent.rangedGet url firstByte)
  | Transfer.raises msg n =>
      let fs1 := fs.appendBytes tmp (remaining.take n) now
      (Except.error msg, fs1, NetEvent.rangedGet url firstByte)

/-- Outcome of the `while first_byte < file_size` loop (lines 175-193). -/
structure LoopResult where
  firstByte : Nat
  fs : FS
  events : List NetEvent
  printed : List String
  leftover : List Transfer
  finished : Bool
deriving Repr, DecidableEq

/-- Lines 175-193: the download loop.  Each iteration runs `_download`
under `try`; on success `first_byte` is reassigned to its return value
and the loop re-tests its condition; on an exception the message is
printed and `break` exits the loop with `first_byte` unchanged.  The
recursion consumes one `Transfer` oracle entry per iteration;
`finished = false` marks the unmodelled case where the oracle ran out
while the loop condition still held (the real loop would keep issuing
requests). -/
def storeLoop (st : LocalStorage) (globalScene : Scene) (sv : Server)
    (fileSize : Nat) (transfers : List Transfer) (firstByte : Nat)
    (fs : FS) (now : Nat) : LoopResult :=
  match transfers with
  | [] =>
    if firstByte < fileSize then ⟨firstByte, fs, [], [], [], false⟩
    else ⟨firstByte, fs, [], [], [], true⟩
  | t :: rest =>
    if firstByte < fileSize then
      match st._download globalScene sv t firstByte fs now with
      | (Except.ok fb1, fs1, ev) =>
        let r := storeLoop st globalScene sv fileSize rest fb1 fs1 now
        ⟨r.firstByte, r.fs, ev :: r.events, r.printed, r.leftover, r.finished⟩
      | (Except.error msg, fs1, ev) =>
        ⟨firstByte, fs1, [ev], [msg], rest, true⟩
    else ⟨firstByte, fs, [], [], t :: rest, true⟩

/-- Outcome of one `store` call. -/
structure StoreResult where
  fs : FS
  events : List NetEvent
  printed : List String
  leftover : List Transfer
  finished : Bool
  finalFirstByte : Nat
  renamed : Bool
  uncaught : Bool
deriving Repr, DecidableEq

/-- Lines 194-198: what `store` does after its download loop exits with
result `lr`: when `first_byte >= file_size` rename the partial file to the
completed file (raising, hence `uncaught`, when the partial path does not
exist); otherwise return normally with no rename.  `headUrl` is the URL the
HEAD probe used (its event is prepended to the loop's events) and
`printed1` the output printed before the loop. -/
def storeFinish (st : LocalStorage) (s : Scene) (fileSize : Nat)
    (headUrl : String) (printed1 : List String) (lr : LoopResult) :
    StoreResult :=
  if lr.finished then
    if fileSize ≤ lr.firstByte then
      if lr.fs.fileExists (st.tmp_scene_path s) then
        ⟨lr.fs.rename (st.tmp_scene_path s) (st.scene_path s),
          NetEvent.head headUrl :: lr.events, printed1 ++ lr.printed,
          lr.leftover, true, lr.firstByte, true, false⟩
      else
        ⟨lr.fs, NetEvent.head headUrl :: lr.events, printed1 ++ lr.printed,
          lr.leftover, true, lr.firstByte, false, true⟩
    else
      ⟨lr.fs, NetEvent.head headUrl :: lr.events, printed1 ++ lr.printed,
        lr.leftover, true, lr.firstByte, false, false⟩
  else
    ⟨lr.fs, NetEvent.head headUrl :: lr.events, printed1 ++ lr.printed,
      lr.leftover, false, lr.firstByte, false, false⟩

/-- Lines 149-198: `store`.  Short-circuits when the completed file
already exists; otherwise creates the order directory when missing,
issues the HEAD probe on `scene.srcurl` (the parameter `s`), computes the
resume offset from `s`'s partial path, runs the download loop (whose
ranged GETs and writes go through `_download` and hence through the
module-global scene `g`), and finally renames `s`'s partial path to `s`'s
completed path when `first_byte >= file_size`.  `renamed` records whether
the rename ran; `uncaught` records an exception escaping `store` (the
rename raising because `s`'s partial path does not exist); the print
strings elide the formatted size/time details of line 173. -/
def LocalStorage.store (st : LocalStorage) (s g : Scene) (sv : Server)
    (transfers : List Transfer) (fs : FS) (now : Nat) : StoreResult :=
  if st.is_stored fs s then
    ⟨fs, [], ["Scene already exists on disk, skipping."], transfers,
      true, 0, false, false⟩
  else
    let dir := st.directory_path s
    let fs1 := if fs.pathExists dir then fs else fs.makeDir dir
    let printed0 :=
      if fs.pathExists dir then []
      else ["Created target_directory: " ++ dir ++ " "]
    let fileSize := (sv.contentAt s.srcurl).length
    let printed1 := printed0 ++ ["Downloading " ++ Scene.name s]
    storeFinish st s fileSize s.srcurl printed1
      (storeLoop st g sv fileSize transfers (st.resumeOffset fs1 s) fs1 now)

/-- Default of the timeout argument (line 281, flags -t and --timeout):
30 minutes. -/
def defaultTimeoutMinutes : Nat := 30

/-- Line 287: `timeout = args.timeout * 60`, minutes to seconds. -/
def timeoutSeconds (minutes : Nat) : Nat := minutes * 60

/-- Observables of one attempt of the retry loop (lines 297-307). -/
structure AttemptOutcome where
  storeRanToCompletion : Bool
  terminateCalled : Bool
  elapsed : Nat
deriving Repr, DecidableEq

/-- Lines 297-307, one attempt: `p = Process(target = storage.store(scene))`.
Python evaluates the argument expression before `Process.__init__` runs,
so `storage.store(scene)` executes synchronously in the parent process,
taking its full duration (`storeDuration` seconds of wall clock), and
`target` is bound to its return value `None`.  The child started by
`p.start()` therefore runs no work and exits at once; `p.join(timeoutSec)`
returns immediately, `p.is_alive()` is false, and `p.terminate()` is never
called.  Nothing bounds the synchronous `store` call. -/
def runAttempt (storeDuration timeoutSec : Nat) : AttemptOutcome :=
  let childElapsed := 0
  let childAlive := childElapsed > timeoutSec
  ⟨true, childAlive, storeDuration + min childElapsed timeoutSec⟩

/-- Lines 295-311, the `while numtries < 6` loop, with the effect of each
`store` call abstracted by `storedAfter k`: whether
`storage.is_stored(scene)` returns true once `k` store calls have run.
Arguments: current `numtries`, store calls made so far, and fuel (the
loop body runs at most 5 times since `numtries` strictly increases to 6;
fuel 6 is enough).  Returns final `(numtries, attempts)`. -/
def retryAux (storedAfter : Nat → Bool) (numtries attempts fuel : Nat) :
    Nat × Nat :=
  match fuel with
  | 0 => (numtries, attempts)
  | Nat.succ f =>
    if numtries < 6 then
      let attempts1 := attempts + 1
      if storedAfter attempts1 then retryAux storedAfter 6 attempts1 f
      else retryAux storedAfter (numtries + 1) attempts1 f
    else (numtries, attempts)

/-- Lines 292-313: the per-scene block of the driving loop.  Skips the
scene when it is already stored; otherwise runs the retry loop and then
line 312's check `numtries == 6 and not storage.is_stored(scene)`, which
prints the download-failure error.  Returns (store calls made,
failure reported). -/
def processScene (storedInitially : Bool) (storedAfter : Nat → Bool) :
    Nat × Bool :=
  if storedInitially then (0, false)
  else
    let r := retryAux storedAfter 1 0 6
    (r.2, r.1 == 6 && !(storedAfter r.2))

/-- Line 291: `for scene in sf:` — every yielded scene is processed, in
order, each through `processScene`. -/
def mainProcess (scenes : List (Bool × (Nat → Bool))) : List (Nat × Bool) :=
  scenes.map (fun p => processScene p.1 p.2)

/-! Helper lemmas about the filesystem model. -/

lemma find?_filter_key_self {α : Type} (l : List (String × α)) (p : String) :
    (l.filter (fun r => !(r.1 == p))).find? (fun r => r.1 == p) = none := by
  induction l with
  | nil => rfl
  | cons a t ih =>
    by_cases h : a.1 = p
    · simp [List.filter_cons, h, ih]
    · simp [List.filter_cons, h, ih]

lemma find?_filter_key_ne {α : Type} (l : List (String × α)) (p q : String)
    (h : ¬ q = p) :
    (l.filter (fun r => !(r.1 == p))).find? (fun r => r.1 == q)
      = l.find? (fun r => r.1 == q) := by
  induction l with
  | nil => rfl
  | cons a t ih =>
    by_cases ha : a.1 = p
    · have haq : ¬ a.1 = q := fun hh => h (hh ▸ ha)
      rw [List.find?_cons_of_neg _ (by simp [haq])]
      simp [List.filter_cons, ha, ih]
    · by_cases hq : a.1 = q
      · rw [List.find?_cons_of_pos _ (by simp [hq])]
        simp [List.filter_cons, ha, hq, h, List.find?_cons]
      · rw [List.find?_cons_of_neg _ (by simp [hq])]
        simp [List.filter_cons, ha, hq, ih]

lemma FS.getFile_setFile_self (fs : FS) (p : String) (f : File) :
    (fs.setFile p f).getFile? p = some f := by
  simp [FS.setFile, FS.getFile?]

lemma FS.getFile_setFile_ne (fs : FS) (p q : String) (f : File)
    (h : ¬ q = p) :
    (fs.setFile p f).getFile? q = fs.getFile? q := by
  simp [FS.setFile, FS.getFile?, beq_eq_false_iff_ne.mpr (fun hh => h hh.symm),
    find?_filter_key_ne _ _ _ h]

lemma FS.getFile_removeFile_self (fs : FS) (p : String) :
    (fs.removeFile p).getFile? p = none := by
  simp [FS.removeFile, FS.getFile?, find?_filter_key_self]

lemma FS.getFile_removeFile_ne (fs : FS) (p q : String) (h : ¬ q = p) :
    (fs.removeFile p).getFile? q = fs.getFile? q := by
  simp [FS.removeFile, FS.getFile?, find?_filter_key_ne _ _ _ h]

lemma FS.getFile_appendBytes_self (fs : FS) (p : String) (bs : List Nat)
    (now : Nat) :
    (fs.appendBytes p bs now).getFile? p
      = some ⟨((fs.getFile? p).getD ⟨[], 0⟩).content ++ bs, now⟩ := by
  simp [FS.appendBytes, FS.getFile_setFile_self]

lemma FS.getFile_appendBytes_ne (fs : FS) (p q : String) (bs : List Nat)
    (now : Nat) (h : ¬ q = p) :
    (fs.appendBytes p bs now).getFile? q = fs.getFile? q := by
  simp [FS.appendBytes, FS.getFile_setFile_ne _ _ _ _ h]

lemma FS.getFile_makeDir (fs : FS) (d p : String) :
    (fs.makeDir d).getFile? p = fs.getFile? p := rfl

lemma FS.getsize_makeDir (fs : FS) (d p : String) :
    (fs.makeDir d).getsize p = fs.getsize p := rfl

lemma FS.fileExists_makeDir (fs : FS) (d p : String) :
    (fs.makeDir d).fileExists p = fs.fileExists p := rfl

lemma FS.getFile_none_of_pathExists_false (fs : FS) (p : String)
    (h : fs.pathExists p = false) : fs.getFile? p = none := by
  unfold FS.pathExists FS.fileExists at h
  cases hg : fs.getFile? p with
  | none => rfl
  | some f => rw [hg] at h; simp at h

lemma FS.pathExists_true_of_getFile (fs : FS) (p : String) (f : File)
    (h : fs.getFile? p = some f) : fs.pathExists p = true := by
  simp [FS.pathExists, FS.fileExists, h]

lemma FS.getsize_eq (fs : FS) (p : String) :
    fs.getsize p = (((fs.getFile? p).getD ⟨[], 0⟩).content).length := rfl

lemma FS.pathExists_makeDir_ne (fs : FS) (p d : String) (h : ¬ p = d) :
    (fs.makeDir d).pathExists p = fs.pathExists p := by
  simp [FS.makeDir, FS.pathExists, FS.fileExists, FS.getFile?, List.any_append,
    beq_eq_false_iff_ne.mpr (fun hh => h hh.symm)]

lemma FS.getFile_rename_dst (fs : FS) (src dst : String) (f : File)
    (hsrc : fs.getFile? src = some f) :
    (fs.rename src dst).getFile? dst = some f := by
  simp [FS.rename, hsrc, FS.getFile_setFile_self]

lemma FS.getFile_rename_src (fs : FS) (src dst : String) (f : File)
    (hsrc : fs.getFile? src = some f) (hne : ¬ src = dst) :
    (fs.rename src dst).getFile? src = none := by
  simp [FS.rename, hsrc, FS.getFile_setFile_ne _ _ _ _ hne,
    FS.getFile_removeFile_self]

lemma FS.getFile_rename_other (fs : FS) (src dst p : String)
    (h1 : ¬ p = src) (h2 : ¬ p = dst) :
    (fs.rename src dst).getFile? p = fs.getFile? p := by
  cases hsrc : fs.getFile? src with
  | none => simp [FS.rename, hsrc]
  | some f =>
    simp [FS.rename, hsrc, FS.getFile_setFile_ne _ _ _ _ h2,
      FS.getFile_removeFile_ne _ _ _ h1]

/-! Path distinctness and the resume offset. -/

lemma LocalStorage.tmp_eq_scene_append (st : LocalStorage) (s : Scene) :
    st.tmp_scene_path s = st.scene_path s ++ ".part" := rfl

lemma LocalStorage.scene_path_ne_tmp (st : LocalStorage) (s : Scene) :
    ¬ st.scene_path s = st.tmp_scene_path s := by
  intro h
  have h2 := congrArg String.length h
  rw [LocalStorage.tmp_eq_scene_append, String.length_append] at h2
  have h5 : (".part" : String).length = 5 := rfl
  omega

lemma LocalStorage.dir_ne_tmp (st : LocalStorage) (s : Scene) :
    ¬ st.directory_path s = st.tmp_scene_path s := by
  intro h
  have h2 := congrArg String.length h
  have he : st.tmp_scene_path s
      = st.directory_path s ++ Scene.filename s ++ ".part" := rfl
  rw [he, String.length_append, String.length_append] at h2
  have h5 : (".part" : String).length = 5 := rfl
  omega

lemma LocalStorage.resumeOffset_eq_getsize (st : LocalStorage) (fs : FS)
    (s : Scene) :
    st.resumeOffset fs s = fs.getsize (st.tmp_scene_path s) := by
  unfold LocalStorage.resumeOffset
  by_cases h : fs.pathExists (st.tmp_scene_path s)
  · simp [h]
  · have hb : fs.pathExists (st.tmp_scene_path s) = false := by
      simpa using h
    simp [h, FS.getsize_eq, FS.getFile_none_of_pathExists_false _ _ hb]

/-! Lemmas about the download loop. -/

lemma storeLoop_frame (st : LocalStorage) (g : Scene) (sv : Server)
    (fileSize : Nat) (ts : List Transfer) (fb : Nat) (fs : FS) (now : Nat)
    (p : String) (h : ¬ p = st.tmp_scene_path g) :
    (storeLoop st g sv fileSize ts fb fs now).fs.getFile? p
      = fs.getFile? p := by
  induction ts generalizing fb fs with
  | nil =>
    by_cases hlt : fb < fileSize <;> simp [storeLoop, hlt]
  | cons t rest ih =>
    by_cases hlt : fb < fileSize
    · cases t with
      | delivers n =>
        simp [storeLoop, hlt, LocalStorage._download, ih,
          FS.getFile_appendBytes_ne _ _ _ _ _ h]
      | raises msg n =>
        simp [storeLoop, hlt, LocalStorage._download,
          FS.getFile_appendBytes_ne _ _ _ _ _ h]
    · simp [storeLoop, hlt]

lemma storeLoop_events (st : LocalStorage) (g : Scene) (sv : Server)
    (fileSize : Nat) (ts : List Transfer) (fb : Nat) (fs : FS) (now : Nat) :
    ∀ ev ∈ (storeLoop st g sv fileSize ts fb fs now).events,
      ∃ off, ev = NetEvent.rangedGet g.srcurl off := by
  induction ts generalizing fb fs with
  | nil =>
    by_cases hlt : fb < fileSize <;> simp [storeLoop, hlt]
  | cons t rest ih =>
    by_cases hlt : fb < fileSize
    · cases t with
      | delivers n =>
        intro ev hev
        simp only [storeLoop, hlt, if_true, LocalStorage._download] at hev
        simp only [List.mem_cons] at hev
        rcases hev with h1 | h2
        · exact ⟨fb, h1⟩
        · exact ih _ _ ev h2
      | raises msg n =>
        intro ev hev
        simp only [storeLoop, hlt, if_true, LocalStorage._download] at hev
        simp only [List.mem_singleton] at hev
        exact ⟨fb, hev⟩
    · simp [storeLoop, hlt]

lemma storeLoop_getsize (st : LocalStorage) (g : Scene) (sv : Server)
    (fileSize : Nat) (ts : List Transfer) (fb : Nat) (fs : FS) (now : Nat)
    (hfb : fb = fs.getsize (st.tmp_scene_path g))
    (hfin : (storeLoop st g sv fileSize ts fb fs now).finished = true)
    (hge : fileSize ≤ (storeLoop st g sv fileSize ts fb fs now).firstByte) :
    (storeLoop st g sv fileSize ts fb fs now).firstByte
      = (storeLoop st g sv fileSize ts fb fs now).fs.getsize
          (st.tmp_scene_path g) := by
  induction ts generalizing fb fs with
  | nil =>
    by_cases hlt : fb < fileSize
    · simp [storeLoop, hlt] at hfin
    · simpa [storeLoop, hlt] using hfb
  | cons t rest ih =>
    by_cases hlt : fb < fileSize
    · cases t with
      | delivers n =>
        simp only [storeLoop, hlt, if_true, LocalStorage._download] at hfin hge ⊢
        exact ih _ _ rfl hfin hge
      | raises msg n =>
        simp only [storeLoop, hlt, if_true, LocalStorage._download] at hge
        omega
    · simpa [storeLoop, hlt] using hfb

lemma storeLoop_content (st : LocalStorage) (g : Scene) (sv : Server)
    (content : List Nat) (ts : List Transfer) (fb : Nat) (fs : FS) (now : Nat)
    (hsv : sv.contentAt g.srcurl = content)
    (hpart : ((fs.getFile? (st.tmp_scene_path g)).getD ⟨[], 0⟩).content
        = content.take fb)
    (hfb : fb ≤ content.length)
    (hpos : 0 < content.length)
    (hfin : (storeLoop st g sv content.length ts fb fs now).finished = true)
    (hge : content.length
        ≤ (storeLoop st g sv content.length ts fb fs now).firstByte) :
    ∃ m, (storeLoop st g sv content.length ts fb fs now).fs.getFile?
        (st.tmp_scene_path g) = some ⟨content, m⟩ := by
  induction ts generalizing fb fs with
  | nil =>
    by_cases hlt : fb < content.length
    · simp [storeLoop, hlt] at hfin
    · have hfbe : fb = content.length := by omega
      subst hfbe
      rw [List.take_length] at hpart
      simp only [storeLoop, hlt, if_false]
      cases hg : fs.getFile? (st.tmp_scene_path g) with
      | none =>
        rw [hg] at hpart
        simp at hpart
        rw [hpart] at hpos
        simp at hpos
      | some f =>
        rw [hg] at hpart
        simp only [Option.getD_some] at hpart
        exact ⟨f.mtime, by rw [← hpart]⟩
  | cons t rest ih =>
    by_cases hlt : fb < content.length
    · cases t with
      | delivers n =>
        simp only [storeLoop, hlt, if_true, LocalStorage._download, hsv]
          at hfin hge ⊢
        apply ih
        · rw [FS.getsize_eq, FS.getFile_appendBytes_self]
          simp only [Option.getD_some]
          rw [hpart, ← List.take_add, List.length_take]
          rw [List.take_eq_take]
          simp [Nat.min_assoc]
        · rw [FS.getsize_eq, FS.getFile_appendBytes_self]
          simp only [Option.getD_some]
          rw [hpart, ← List.take_add, List.length_take]
          omega
        · exact hfin
        · exact hge
      | raises msg n =>
        simp only [storeLoop, hlt, if_true, LocalStorage._download] at hge
        omega
    · have hfbe : fb = content.length := by omega
      subst hfbe
      rw [List.take_length] at hpart
      simp only [storeLoop, hlt, if_false]
      cases hg : fs.getFile? (st.tmp_scene_path g) with
      | none =>
        rw [hg] at hpart
        simp at hpart
        rw [hpart] at hpos
        simp at hpos
      | some f =>
        rw [hg] at hpart
        simp only [Option.getD_some] at hpart
        exact ⟨f.mtime, by rw [← hpart]⟩

/-! Computation of a run with a single, fully honoured ranged request. -/

lemma storeLoop_single_delivers (st : LocalStorage) (g : Scene) (sv : Server)
    (content : List Nat) (k : Nat) (fs : FS) (now : Nat)
    (hsv : sv.contentAt g.srcurl = content)
    (hk : k < content.length)
    (hpart : ((fs.getFile? (st.tmp_scene_path g)).getD ⟨[], 0⟩).content
        = content.take k) :
    storeLoop st g sv content.length
        [Transfer.delivers (content.length - k)] k fs now
      = ⟨content.length,
         fs.appendBytes (st.tmp_scene_path g) (content.drop k) now,
         [NetEvent.rangedGet g.srcurl k], [], [], true⟩ := by
  have hdrop : (content.drop k).take (content.length - k) = content.drop k :=
    List.take_of_length_le (by rw [List.length_drop])
  have hsize : (fs.appendBytes (st.tmp_scene_path g) (content.drop k)
      now).getsize (st.tmp_scene_path g) = content.length := by
    rw [FS.getsize_eq, FS.getFile_appendBytes_self]
    simp only [Option.getD_some]
    rw [hpart]
    simp [List.take_append_drop]
  simp only [storeLoop, LocalStorage._download, hsv, hdrop, hk, if_true,
    hsize]
  simp [hk, hsize]

lemma store_resume_run (st : LocalStorage) (s : Scene) (sv : Server)
    (content : List Nat) (k : Nat) (fs : FS) (now : Nat)
    (hsv : sv.contentAt s.srcurl = content)
    (hk : k < content.length)
    (hns : st.is_stored fs s = false)
    (hpart : ((fs.getFile? (st.tmp_scene_path s)).getD ⟨[], 0⟩).content
        = content.take k)
    (hoff : st.resumeOffset fs s = k) :
    (st.store s s sv [Transfer.delivers (content.length - k)] fs now).events
        = [NetEvent.head s.srcurl, NetEvent.rangedGet s.srcurl k]
    ∧ (st.store s s sv [Transfer.delivers (content.length - k)]
        fs now).fs.getFile? (st.scene_path s) = some ⟨content, now⟩
    ∧ (st.store s s sv [Transfer.delivers (content.length - k)]
        fs now).renamed = true
    ∧ (st.store s s sv [Transfer.delivers (content.length - k)]
        fs now).finished = true
    ∧ (st.store s s sv [Transfer.delivers (content.length - k)]
        fs now).uncaught = false := by
  have htmp : (fs.appendBytes (st.tmp_scene_path s) (content.drop k)
      now).getFile? (st.tmp_scene_path s) = some ⟨content, now⟩ := by
    rw [FS.getFile_appendBytes_self, hpart]
    simp [List.take_append_drop]
  unfold LocalStorage.store
  rw [if_neg (by simp [hns])]
  by_cases hdir : fs.pathExists (st.directory_path s) = true
  · simp only [hdir, if_true]
    rw [hoff, hsv, storeLoop_single_delivers st s sv content k fs now hsv hk hpart]
    simp only [storeFinish]
    rw [if_pos trivial, if_pos (Nat.le_refl content.length),
      if_pos (by simp [FS.fileExists, htmp])]
    refine ⟨rfl, ?_, rfl, rfl, rfl⟩
    exact FS.getFile_rename_dst _ _ _ _ htmp
  · simp only [hdir, Bool.not_eq_true, Bool.false_eq_true, if_false]
    have hoffm : st.resumeOffset (fs.makeDir (st.directory_path s)) s = k := by
      rw [LocalStorage.resumeOffset_eq_getsize, FS.getsize_makeDir,
        ← LocalStorage.resumeOffset_eq_getsize]
      exact hoff
    have hpartm : (((fs.makeDir (st.directory_path s)).getFile?
        (st.tmp_scene_path s)).getD ⟨[], 0⟩).content = content.take k := hpart
    have htmpm : ((fs.makeDir (st.directory_path s)).appendBytes
        (st.tmp_scene_path s) (content.drop k) now).getFile?
        (st.tmp_scene_path s) = some ⟨content, now⟩ := by
      rw [FS.getFile_appendBytes_self, hpartm]
      simp [List.take_append_drop]
    rw [hoffm, hsv, storeLoop_single_delivers st s sv content k _ now hsv hk hpartm]
    simp only [storeFinish]
    rw [if_pos trivial, if_pos (Nat.le_refl content.length),
      if_pos (by simp [FS.fileExists, htmpm])]
    refine ⟨rfl, ?_, rfl, rfl, rfl⟩
    exact FS.getFile_rename_dst _ _ _ _ htmpm

lemma store_eq_skip (st : LocalStorage) (s g : Scene) (sv : Server)
    (ts : List Transfer) (fs : FS) (now : Nat)
    (hst : st.is_stored fs s = true) :
    st.store s g sv ts fs now
      = ⟨fs, [], ["Scene already exists on disk, skipping."], ts,
          true, 0, false, false⟩ := by
  unfold LocalStorage.store
  rw [if_pos hst]

lemma store_eq_finish (st : LocalStorage) (s g : Scene) (sv : Server)
    (ts : List Transfer) (fs : FS) (now : Nat)
    (hns : st.is_stored fs s = false) :
    st.store s g sv ts fs now
      = storeFinish st s (sv.contentAt s.srcurl).length s.srcurl
          ((if fs.pathExists (st.directory_path s) then ([] : List String)
            else ["Created target_directory: " ++ st.directory_path s ++ " "])
           ++ ["Downloading " ++ Scene.name s])
          (storeLoop st g sv (sv.contentAt s.srcurl).length ts
            (st.resumeOffset (if fs.pathExists (st.directory_path s) then fs
              else fs.makeDir (st.directory_path s)) s)
            (if fs.pathExists (st.directory_path s) then fs
              else fs.makeDir (st.directory_path s)) now) := by
  unfold LocalStorage.store
  rw [if_neg (by simp [hns])]

lemma storeFinish_renamed_le (st : LocalStorage) (s : Scene) (fileSize : Nat)
    (url : String) (printed1 : List String) (lr : LoopResult)
    (hren : (storeFinish st s fileSize url printed1 lr).renamed = true) :
    lr.finished = true ∧ fileSize ≤ lr.firstByte
    ∧ lr.fs.fileExists (st.tmp_scene_path s) = true
    ∧ storeFinish st s fileSize url printed1 lr
      = ⟨lr.fs.rename (st.tmp_scene_path s) (st.scene_path s),
         NetEvent.head url :: lr.events, printed1 ++ lr.printed,
         lr.leftover, true, lr.firstByte, true, false⟩ := by
  unfold storeFinish at hren ⊢
  split at hren
  · split at hren
    · split at hren
      · refine ⟨by assumption, by assumption, by assumption, ?_⟩
        rw [if_pos (by assumption), if_pos (by assumption),
          if_pos (by assumption)]
      · simp at hren
    · simp at hren
  · simp at hren

/-! Claim theorems. -/

/-- C1: for a scene with an existing partial file of size k < total,
`store` resumes with a single ranged request at offset k, appends the
streamed bytes to the partial file, and the completed file's bytes equal
those of a fresh full download; with no partial file the resume offset is
0; and after every successful ranged request the new offset is the partial
file's on-disk size (the value `_download` returns). -/
theorem resume_produces_full_content
    (st : LocalStorage) (s : Scene) (sv : Server) (content : List Nat)
    (k : Nat) (fs fs0 : FS) (now m : Nat)
    (hsv : sv.contentAt s.srcurl = content)
    (hk : k < content.length)
    (hns : st.is_stored fs s = false)
    (hpart : fs.getFile? (st.tmp_scene_path s) = some ⟨content.take k, m⟩)
    (hns0 : st.is_stored fs0 s = false)
    (hnp0 : fs0.pathExists (st.tmp_scene_path s) = false) :
    ((st.store s s sv [Transfer.delivers (content.length - k)] fs now).events
        = [NetEvent.head s.srcurl, NetEvent.rangedGet s.srcurl k])
    ∧ ((st.store s s sv [Transfer.delivers (content.length - k)]
          fs now).fs.getFile? (st.scene_path s)).map File.content
        = some content
    ∧ ((st.store s s sv [Transfer.delivers content.length] fs0 now).events
        = [NetEvent.head s.srcurl, NetEvent.rangedGet s.srcurl 0])
    ∧ ((st.store s s sv [Transfer.delivers content.length]
          fs0 now).fs.getFile? (st.scene_path s)).map File.content
        = some content
    ∧ (((st.store s s sv [Transfer.delivers (content.length - k)]
          fs now).fs.getFile? (st.scene_path s)).map File.content
        = ((st.store s s sv [Transfer.delivers content.length]
          fs0 now).fs.getFile? (st.scene_path s)).map File.content)
    ∧ (∀ t fb fs1 now1 r fs2 ev,
        st._download s sv t fb fs1 now1 = (Except.ok r, fs2, ev) →
        r = fs2.getsize (st.tmp_scene_path s)) := by
  have hoff : st.resumeOffset fs s = k := by
    rw [LocalStorage.resumeOffset_eq_getsize, FS.getsize_eq, hpart]
    simp [List.length_take, Nat.min_eq_left (Nat.le_of_lt hk)]
  have h1 := store_resume_run st s sv content k fs now hsv hk hns
    (by rw [hpart]; rfl) hoff
  have hpart0 : ((fs0.getFile? (st.tmp_scene_path s)).getD ⟨[], 0⟩).content
      = content.take 0 := by
    rw [FS.getFile_none_of_pathExists_false _ _ hnp0]
    simp
  have hoff0 : st.resumeOffset fs0 s = 0 := by
    simp [LocalStorage.resumeOffset, hnp0]
  have h0 := store_resume_run st s sv content 0 fs0 now hsv
    (Nat.lt_of_le_of_lt (Nat.zero_le k) hk) hns0 hpart0 hoff0
  simp only [Nat.sub_zero] at h0
  refine ⟨h1.1, ?_, h0.1, ?_, ?_, ?_⟩
  · rw [h1.2.1]
    rfl
  · rw [h0.2.1]
    rfl
  · rw [h1.2.1, h0.2.1]
  · intro t fb fs1 now1 r fs2 ev h
    cases t with
    | delivers n =>
      simp only [LocalStorage._download, Prod.mk.injEq, Except.ok.injEq] at h
      obtain ⟨hr, hf, -⟩ := h
      rw [← hr, ← hf]
    | raises msg n =>
      simp only [LocalStorage._download, Prod.mk.injEq] at h
      exact absurd h.1 (by simp)

/-- Witness for C1: a concrete resumed download (partial file [10, 11]
of a 5-byte archive) and a concrete fresh download. -/
theorem resume_produces_full_content_witness :
    (LocalStorage.store ⟨"base"⟩ ⟨"http://h/o1/f1.tar.gz", "o1", 1, 1⟩
        ⟨"http://h/o1/f1.tar.gz", "o1", 1, 1⟩
        ⟨[("http://h/o1/f1.tar.gz", [10, 11, 12, 13, 14])]⟩
        [Transfer.delivers 3]
        ⟨[("base/o1/f1.tar.gz.part", ⟨[10, 11], 5⟩)], ["base/o1/"]⟩ 99).events
      = [NetEvent.head "http://h/o1/f1.tar.gz",
         NetEvent.rangedGet "http://h/o1/f1.tar.gz" 2]
    ∧ ((LocalStorage.store ⟨"base"⟩ ⟨"http://h/o1/f1.tar.gz", "o1", 1, 1⟩
        ⟨"http://h/o1/f1.tar.gz", "o1", 1, 1⟩
        ⟨[("http://h/o1/f1.tar.gz", [10, 11, 12, 13, 14])]⟩
        [Transfer.delivers 3]
        ⟨[("base/o1/f1.tar.gz.part", ⟨[10, 11], 5⟩)], ["base/o1/"]⟩
        99).fs.getFile?
          (LocalStorage.scene_path ⟨"base"⟩
            ⟨"http://h/o1/f1.tar.gz", "o1", 1, 1⟩)).map File.content
      = some [10, 11, 12, 13, 14]
    ∧ ((LocalStorage.store ⟨"base"⟩ ⟨"http://h/o1/f1.tar.gz", "o1", 1, 1⟩
        ⟨"http://h/o1/f1.tar.gz", "o1", 1, 1⟩
        ⟨[("http://h/o1/f1.tar.gz", [10, 11, 12, 13, 14])]⟩
        [Transfer.delivers 5] ⟨[], []⟩ 99).fs.getFile?
          (LocalStorage.scene_path ⟨"base"⟩
            ⟨"http://h/o1/f1.tar.gz", "o1", 1, 1⟩)).map File.content
      = some [10, 11, 12, 13, 14] := by
  have h := resume_produces_full_content ⟨"base"⟩
    ⟨"http://h/o1/f1.tar.gz", "o1", 1, 1⟩
    ⟨[("http://h/o1/f1.tar.gz", [10, 11, 12, 13, 14])]⟩
    [10, 11, 12, 13, 14] 2
    ⟨[("base/o1/f1.tar.gz.part", ⟨[10, 11], 5⟩)], ["base/o1/"]⟩
    ⟨[], []⟩ 99 5 (by decide) (by decide) (by decide) (by decide)
    (by decide) (by decide)
  exact ⟨h.1, h.2.1, h.2.2.2.1⟩

/-- C2: the partial file is promoted to the completed file only when the
recorded offset is at least the expected total from the HEAD probe; a
partial shorter than the total is never promoted, and after the rename the
partial path no longer exists. -/
theorem rename_only_when_complete (st : LocalStorage) (s : Scene)
    (sv : Server) (ts : List Transfer) (fs : FS) (now : Nat) :
    ((st.store s s sv ts fs now).renamed = true →
       (sv.contentAt s.srcurl).length
           ≤ (st.store s s sv ts fs now).finalFirstByte
       ∧ (st.store s s sv ts fs now).fs.fileExists (st.tmp_scene_path s)
           = false
       ∧ ∃ f, (st.store s s sv ts fs now).fs.getFile? (st.scene_path s)
             = some f
           ∧ (sv.contentAt s.srcurl).length ≤ f.content.length)
    ∧ ((st.store s s sv ts fs now).finalFirstByte
          < (sv.contentAt s.srcurl).length →
       (st.store s s sv ts fs now).renamed = false) := by
  by_cases hst : st.is_stored fs s = true
  · rw [store_eq_skip st s s sv ts fs now hst]
    exact ⟨fun h => by simp at h, fun _ => rfl⟩
  · have hns : st.is_stored fs s = false := by simpa using hst
    rw [store_eq_finish st s s sv ts fs now hns]
    constructor
    · intro hren
      obtain ⟨hfin, hge, hex, heq⟩ := storeFinish_renamed_le _ _ _ _ _ _ hren
      have hinv := LocalStorage.resumeOffset_eq_getsize st
        (if fs.pathExists (st.directory_path s) then fs
          else fs.makeDir (st.directory_path s)) s
      have hgs := storeLoop_getsize st s sv (sv.contentAt s.srcurl).length ts
        _ _ now hinv hfin hge
      rw [heq]
      obtain ⟨f0, hf0⟩ : ∃ f0,
          (storeLoop st s sv (sv.contentAt s.srcurl).length ts
            (st.resumeOffset (if fs.pathExists (st.directory_path s) then fs
              else fs.makeDir (st.directory_path s)) s)
            (if fs.pathExists (st.directory_path s) then fs
              else fs.makeDir (st.directory_path s)) now).fs.getFile?
            (st.tmp_scene_path s) = some f0 := by
        unfold FS.fileExists at hex
        cases hc : (storeLoop st s sv (sv.contentAt s.srcurl).length ts
            (st.resumeOffset (if fs.pathExists (st.directory_path s) then fs
              else fs.makeDir (st.directory_path s)) s)
            (if fs.pathExists (st.directory_path s) then fs
              else fs.makeDir (st.directory_path s)) now).fs.getFile?
            (st.tmp_scene_path s) with
        | none => rw [hc] at hex; simp at hex
        | some f0 => exact ⟨f0, rfl⟩
      have hnt : ¬ st.tmp_scene_path s = st.scene_path s :=
        fun hh => LocalStorage.scene_path_ne_tmp st s hh.symm
      refine ⟨hge, ?_, ⟨f0, ?_, ?_⟩⟩
      · simp [FS.fileExists, FS.getFile_rename_src _ _ _ f0 hf0 hnt]
      · exact FS.getFile_rename_dst _ _ _ f0 hf0
      · rw [FS.getsize_eq, hf0] at hgs
        rw [hgs] at hge
        exact hge
    · intro hlt
      by_cases hren : (storeFinish st s (sv.contentAt s.srcurl).length
          s.srcurl
          ((if fs.pathExists (st.directory_path s) then ([] : List String)
            else ["Created target_directory: " ++ st.directory_path s ++ " "])
           ++ ["Downloading " ++ Scene.name s])
          (storeLoop st s sv (sv.contentAt s.srcurl).length ts
            (st.resumeOffset (if fs.pathExists (st.directory_path s) then fs
              else fs.makeDir (st.directory_path s)) s)
            (if fs.pathExists (st.directory_path s) then fs
              else fs.makeDir (st.directory_path s)) now)).renamed = true
      · obtain ⟨hfin, hge, hex, heq⟩ :=
          storeFinish_renamed_le _ _ _ _ _ _ hren
        rw [heq] at hlt
        exact absurd hlt (by simpa using hge)
      · simpa using hren

/-- Witness for C2 at a concrete run that does rename. -/
theorem rename_only_when_complete_witness :
    5 ≤ (LocalStorage.store ⟨"base"⟩ ⟨"http://h/o1/f1.tar.gz", "o1", 1, 1⟩
        ⟨"http://h/o1/f1.tar.gz", "o1", 1, 1⟩
        ⟨[("http://h/o1/f1.tar.gz", [10, 11, 12, 13, 14])]⟩
        [Transfer.delivers 5] ⟨[], []⟩ 99).finalFirstByte
    ∧ (LocalStorage.store ⟨"base"⟩ ⟨"http://h/o1/f1.tar.gz", "o1", 1, 1⟩
        ⟨"http://h/o1/f1.tar.gz", "o1", 1, 1⟩
        ⟨[("http://h/o1/f1.tar.gz", [10, 11, 12, 13, 14])]⟩
        [Transfer.delivers 5] ⟨[], []⟩ 99).fs.fileExists
        (LocalStorage.tmp_scene_path ⟨"base"⟩
          ⟨"http://h/o1/f1.tar.gz", "o1", 1, 1⟩) = false := by
  have h := rename_only_when_complete ⟨"base"⟩
    ⟨"http://h/o1/f1.tar.gz", "o1", 1, 1⟩
    ⟨[("http://h/o1/f1.tar.gz", [10, 11, 12, 13, 14])]⟩
    [Transfer.delivers 5] ⟨[], []⟩ 99
  have h2 := h.1 (by decide)
  exact ⟨h2.1, h2.2.1⟩

/-- C3: for an already stored scene, `store` returns at once: the
filesystem (bytes and timestamps) is unchanged and no network call (no
HEAD probe, no ranged GET) is issued. -/
theorem store_noop_when_stored (st : LocalStorage) (s g : Scene)
    (sv : Server) (ts : List Transfer) (fs : FS) (now : Nat)
    (h : st.is_stored fs s = true) :
    (st.store s g sv ts fs now).fs = fs
    ∧ (st.store s g sv ts fs now).events = []
    ∧ (st.store s g sv ts fs now).renamed = false
    ∧ (st.store s g sv ts fs now).uncaught = false
    ∧ (st.store s g sv ts fs now).leftover = ts := by
  rw [store_eq_skip st s g sv ts fs now h]
  exact ⟨rfl, rfl, rfl, rfl, rfl⟩

/-- Witness for C3 at a concrete stored scene. -/
theorem store_noop_when_stored_witness :
    (LocalStorage.store ⟨"base"⟩ ⟨"http://h/o1/f1.tar.gz", "o1", 1, 1⟩
        ⟨"http://h/o1/f1.tar.gz", "o1", 1, 1⟩
        ⟨[("http://h/o1/f1.tar.gz", [10, 11, 12, 13, 14])]⟩
        [Transfer.delivers 5]
        ⟨[("base/o1/f1.tar.gz", ⟨[1, 2], 7⟩)], []⟩ 99).fs
      = ⟨[("base/o1/f1.tar.gz", ⟨[1, 2], 7⟩)], []⟩
    ∧ (LocalStorage.store ⟨"base"⟩ ⟨"http://h/o1/f1.tar.gz", "o1", 1, 1⟩
        ⟨"http://h/o1/f1.tar.gz", "o1", 1, 1⟩
        ⟨[("http://h/o1/f1.tar.gz", [10, 11, 12, 13, 14])]⟩
        [Transfer.delivers 5]
        ⟨[("base/o1/f1.tar.gz", ⟨[1, 2], 7⟩)], []⟩ 99).events = [] := by
  have h := store_noop_when_stored ⟨"base"⟩
    ⟨"http://h/o1/f1.tar.gz", "o1", 1, 1⟩
    ⟨"http://h/o1/f1.tar.gz", "o1", 1, 1⟩
    ⟨[("http://h/o1/f1.tar.gz", [10, 11, 12, 13, 14])]⟩
    [Transfer.delivers 5]
    ⟨[("base/o1/f1.tar.gz", ⟨[1, 2], 7⟩)], []⟩ 99 (by decide)
  exact ⟨h.1, h.2.1⟩

/-- C4: for a not-yet-stored scene the driving loop invokes `store` at
most 5 times; it stops as soon as the existence check succeeds after an
attempt; after 5 attempts that all leave the scene absent it reports a
download failure and never makes a 6th attempt; and every scene of the
feed gets processed. -/
theorem retry_at_most_five (storedAfter : Nat → Bool) :
    (processScene false storedAfter).1 ≤ 5
    ∧ (∀ k, 1 ≤ k → k ≤ 5 → storedAfter k = true →
        (∀ j, j < k → 1 ≤ j → storedAfter j = false) →
        (processScene false storedAfter).1 = k
        ∧ (processScene false storedAfter).2 = false)
    ∧ ((∀ j, j ≤ 5 → storedAfter j = false) →
        (processScene false storedAfter).1 = 5
        ∧ (processScene false storedAfter).2 = true)
    ∧ (∀ scenes : List (Bool × (Nat → Bool)),
        (mainProcess scenes).length = scenes.length) := by
  refine ⟨?_, ?_, ?_, ?_⟩
  · by_cases h1 : storedAfter 1 <;> by_cases h2 : storedAfter 2 <;>
      by_cases h3 : storedAfter 3 <;> by_cases h4 : storedAfter 4 <;>
      by_cases h5 : storedAfter 5 <;>
      simp [processScene, retryAux, h1, h2, h3, h4, h5]
  · intro k hk1 hk5 hk hmin
    interval_cases k
    · simp [processScene, retryAux, hk]
    · have e1 := hmin 1 (by omega) (by omega)
      simp [processScene, retryAux, e1, hk]
    · have e1 := hmin 1 (by omega) (by omega)
      have e2 := hmin 2 (by omega) (by omega)
      simp [processScene, retryAux, e1, e2, hk]
    · have e1 := hmin 1 (by omega) (by omega)
      have e2 := hmin 2 (by omega) (by omega)
      have e3 := hmin 3 (by omega) (by omega)
      simp [processScene, retryAux, e1, e2, e3, hk]
    · have e1 := hmin 1 (by omega) (by omega)
      have e2 := hmin 2 (by omega) (by omega)
      have e3 := hmin 3 (by omega) (by omega)
      have e4 := hmin 4 (by omega) (by omega)
      simp [processScene, retryAux, e1, e2, e3, e4, hk]
  · intro hall
    have e1 := hall 1 (by omega)
    have e2 := hall 2 (by omega)
    have e3 := hall 3 (by omega)
    have e4 := hall 4 (by omega)
    have e5 := hall 5 (by omega)
    simp [processScene, retryAux, e1, e2, e3, e4, e5]
  · intro scenes
    simp [mainProcess]

/-- Witness for C4: success on the 3rd attempt stops at 3 store calls
with no failure report; constant failure makes exactly 5 calls and
reports the failure. -/
theorem retry_at_most_five_witness :
    (processScene false (fun k => k == 3)).1 = 3
    ∧ (processScene false (fun k => k == 3)).2 = false
    ∧ (processScene false (fun _ => false)).1 = 5
    ∧ (processScene false (fun _ => false)).2 = true := by
  have h := retry_at_most_five (fun k => k == 3)
  have h2 := h.2.1 3 (by decide) (by decide) (by decide)
    (fun j hj _ => by interval_cases j <;> rfl)
  have h3 := (retry_at_most_five (fun _ => false)).2.2.1 (fun j _ => rfl)
  exact ⟨h2.1, h2.2, h3.1, h3.2⟩

/-- C5 (code bug): line 297, `p = Process(target = storage.store(scene))`,
evaluates `storage.store(scene)` eagerly in the parent process, so the
store call runs to completion unbounded: an attempt whose store call
hangs for 1801 seconds under the default 30-minute (1800 s) timeout still
completes, exceeds the timeout in wall-clock time, and is never
terminated. -/
theorem timeout_does_not_bound_store :
    (runAttempt 1801 (timeoutSeconds defaultTimeoutMinutes)).storeRanToCompletion
      = true
    ∧ (runAttempt 1801 (timeoutSeconds defaultTimeoutMinutes)).terminateCalled
      = false
    ∧ timeoutSeconds defaultTimeoutMinutes
      < (runAttempt 1801 (timeoutSeconds defaultTimeoutMinutes)).elapsed := by
  exact ⟨rfl, rfl, by decide⟩

/-! Lemmas about the feed generator. -/

lemma yieldScenes_terminator (entries : List Entry) (oid : String)
    (num idx : Nat)
    (hp : ∀ e ∈ entries, (parseSceneOrder e.description).isSome) :
    (yieldScenes entries oid num idx).2 = Terminator.completed := by
  induction entries generalizing idx with
  | nil => rfl
  | cons e rest ih =>
    obtain ⟨so, hso⟩ := Option.isSome_iff_exists.mp (hp e (by simp))
    have hrest := fun e2 he2 => hp e2 (List.mem_cons_of_mem _ he2)
    cases hcond : (oid == "ALL" || so == oid) <;>
      simp [yieldScenes, hso, hcond, ih _ hrest]

lemma yieldScenes_all_spec (entries : List Entry) (num idx : Nat)
    (hp : ∀ e ∈ entries, (parseSceneOrder e.description).isSome) :
    (yieldScenes entries "ALL" num idx).1.map
        (fun s => (s.srcurl, s.orderid, s.filenum))
      = (entries.enumFrom idx).map
          (fun p => (p.2.link, (parseSceneOrder p.2.description).getD "",
            p.1 + 1)) := by
  induction entries generalizing idx with
  | nil => rfl
  | cons e rest ih =>
    obtain ⟨so, hso⟩ := Option.isSome_iff_exists.mp (hp e (by simp))
    have hrest := fun e2 he2 => hp e2 (List.mem_cons_of_mem _ he2)
    simp [yieldScenes, hso, List.enumFrom_cons, ih _ hrest]

lemma yieldScenes_filter_spec (entries : List Entry) (oid : String)
    (num idx : Nat) (hoid : ¬ oid = "ALL")
    (hp : ∀ e ∈ entries, (parseSceneOrder e.description).isSome) :
    (yieldScenes entries oid num idx).1.map
        (fun s => (s.srcurl, s.orderid, s.filenum))
      = ((entries.enumFrom idx).filter
          (fun p => parseSceneOrder p.2.description == some oid)).map
          (fun p => (p.2.link, oid, p.1 + 1)) := by
  induction entries generalizing idx with
  | nil => rfl
  | cons e rest ih =>
    obtain ⟨so, hso⟩ := Option.isSome_iff_exists.mp (hp e (by simp))
    have hrest := fun e2 he2 => hp e2 (List.mem_cons_of_mem _ he2)
    have hall : (oid == "ALL") = false := beq_eq_false_iff_ne.mpr hoid
    by_cases hmatch : so = oid
    · subst hmatch
      simp [yieldScenes, hso, hall, List.enumFrom_cons, List.filter_cons,
        ih _ hrest]
    · have hpred : ((some so : Option String) == some oid) = false :=
        beq_eq_false_iff_ne.mpr (fun h => hmatch (Option.some.inj h))
      have hso2 : (so == oid) = false := beq_eq_false_iff_ne.mpr hmatch
      simp [yieldScenes, hso, hall, hso2, hpred, List.enumFrom_cons,
        List.filter_cons, ih _ hrest]

/-- C6: with a specific order id, `get_items` yields exactly the scenes
whose order id parsed from the description's second comma field equals
that id, in feed order with their 1-based positions; with ALL it yields
one scene per entry in feed order; and the generator completes. -/
theorem get_items_filters_by_order (feed : Feed) (oid : String)
    (h403 : ¬ feed.status = 403) (h404 : ¬ feed.status = 404)
    (hp : ∀ e ∈ feed.entries, (parseSceneOrder e.description).isSome) :
    (¬ oid = "ALL" →
      (SceneFeed.get_items feed oid).yielded.map
          (fun s => (s.srcurl, s.orderid, s.filenum))
        = ((feed.entries.enumFrom 0).filter
            (fun p => parseSceneOrder p.2.description == some oid)).map
            (fun p => (p.2.link, oid, p.1 + 1)))
    ∧ (SceneFeed.get_items feed "ALL").yielded.map
          (fun s => (s.srcurl, s.orderid, s.filenum))
        = (feed.entries.enumFrom 0).map
            (fun p => (p.2.link, (parseSceneOrder p.2.description).getD "",
              p.1 + 1))
    ∧ (SceneFeed.get_items feed oid).terminator = Terminator.completed
    ∧ (SceneFeed.get_items feed "ALL").yielded.length
        = feed.entries.length := by
  have hgi : ∀ o, SceneFeed.get_items feed o
      = ⟨(yieldScenes feed.entries o (numDownloads feed o) 0).1,
         (yieldScenes feed.entries o (numDownloads feed o) 0).2⟩ := by
    intro o
    unfold SceneFeed.get_items
    rw [if_neg h403, if_neg h404]
  refine ⟨?_, ?_, ?_, ?_⟩
  · intro hoid
    rw [hgi oid]
    exact yieldScenes_filter_spec feed.entries oid _ 0 hoid hp
  · rw [hgi "ALL"]
    exact yieldScenes_all_spec feed.entries _ 0 hp
  · rw [hgi oid]
    exact yieldScenes_terminator feed.entries oid _ 0 hp
  · rw [hgi "ALL"]
    have hlen := congrArg List.length (yieldScenes_all_spec feed.entries
      (numDownloads feed "ALL") 0 hp)
    simpa using hlen

/-- Witness for C6: a feed with order ids A, A, B; requesting A yields
exactly the 2 matching scenes in feed order, ALL yields all 3. -/
theorem get_items_filters_by_order_witness :
    (SceneFeed.get_items
        ⟨200, [⟨"u1", "s:d,orderid:A,orderdate:x", "oA1"⟩,
               ⟨"u2", "s:d,orderid:A,orderdate:x", "oA2"⟩,
               ⟨"u3", "s:d,orderid:B,orderdate:x", "oB1"⟩]⟩ "A").yielded.map
        (fun s => (s.srcurl, s.orderid, s.filenum))
      = [("u1", "A", 1), ("u2", "A", 2)]
    ∧ (SceneFeed.get_items
        ⟨200, [⟨"u1", "s:d,orderid:A,orderdate:x", "oA1"⟩,
               ⟨"u2", "s:d,orderid:A,orderdate:x", "oA2"⟩,
               ⟨"u3", "s:d,orderid:B,orderdate:x", "oB1"⟩]⟩
        "ALL").yielded.length = 3 := by
  have h := get_items_filters_by_order
    ⟨200, [⟨"u1", "s:d,orderid:A,orderdate:x", "oA1"⟩,
           ⟨"u2", "s:d,orderid:A,orderdate:x", "oA2"⟩,
           ⟨"u3", "s:d,orderid:B,orderdate:x", "oB1"⟩]⟩ "A"
    (by decide) (by decide) (by decide)
  exact ⟨(h.1 (by decide)).trans (by decide), h.2.2.2⟩

/-- C7: on a 403 feed response, `get_items` calls exit() before yielding
any scene: the run terminates with no scene yielded, so no download is
attempted under failed authentication. -/
theorem feed_403_stops_run (feed : Feed) (oid : String)
    (h : feed.status = 403) :
    (SceneFeed.get_items feed oid).yielded = []
    ∧ (SceneFeed.get_items feed oid).terminator = Terminator.exited 0 := by
  unfold SceneFeed.get_items
  rw [if_pos h]
  exact ⟨rfl, rfl⟩

/-- Witness for C7. -/
theorem feed_403_stops_run_witness :
    (SceneFeed.get_items
        ⟨403, [⟨"u1", "s:d,orderid:A,orderdate:x", "oA1"⟩]⟩ "ALL").yielded
      = []
    ∧ (SceneFeed.get_items
        ⟨403, [⟨"u1", "s:d,orderid:A,orderdate:x", "oA1"⟩]⟩
        "ALL").terminator = Terminator.exited 0 :=
  feed_403_stops_run ⟨403, [⟨"u1", "s:d,orderid:A,orderdate:x", "oA1"⟩]⟩
    "ALL" rfl

/-- C8 counterexample: on a 403 feed the run does terminate early, but by
calling exit() with no argument, so the process exit status is 0 — the
claimed non-zero exit code does not occur. -/
theorem feed_error_exit_nonzero_counterexample :
    ((SceneFeed.get_items ⟨403, []⟩ "ALL").terminator).exitCode
      = some 0 := by
  decide

/-- C8 (amended): on feed status 403 or 404 the program terminates early,
before yielding any scene, but with exit status 0 (exit() with no
argument), not a non-zero code; on any other status the generator runs to
completion over all well-formed entries, with no aggregate exit code
distinguishing partial failure from success. -/
theorem feed_error_exits_early_code_zero (feed : Feed) (oid : String) :
    (feed.status = 403 ∨ feed.status = 404 →
       (SceneFeed.get_items feed oid).terminator = Terminator.exited 0
       ∧ (SceneFeed.get_items feed oid).yielded = [])
    ∧ (¬ feed.status = 403 → ¬ feed.status = 404 →
       (∀ e ∈ feed.entries, (parseSceneOrder e.description).isSome) →
       (SceneFeed.get_items feed oid).terminator
         = Terminator.completed) := by
  constructor
  · intro h
    unfold SceneFeed.get_items
    by_cases h3 : feed.status = 403
    · rw [if_pos h3]
      exact ⟨rfl, rfl⟩
    · rcases h with h | h
      · exact absurd h h3
      · rw [if_neg h3, if_pos h]
        exact ⟨rfl, rfl⟩
  · intro h1 h2 hp
    unfold SceneFeed.get_items
    rw [if_neg h1, if_neg h2]
    exact yieldScenes_terminator feed.entries oid _ 0 hp

/-- Witness for the amended C8: a 404 feed exits with status 0 and no
scenes; a 200 feed completes. -/
theorem feed_error_exits_early_code_zero_witness :
    (SceneFeed.get_items ⟨404, []⟩ "ALL").terminator = Terminator.exited 0
    ∧ (SceneFeed.get_items ⟨404, []⟩ "ALL").yielded = []
    ∧ (SceneFeed.get_items
        ⟨200, [⟨"u1", "s:d,orderid:A,orderdate:x", "oA1"⟩]⟩
        "ALL").terminator = Terminator.completed := by
  have h1 := (feed_error_exits_early_code_zero ⟨404, []⟩ "ALL").1
    (Or.inr rfl)
  have h2 := (feed_error_exits_early_code_zero
    ⟨200, [⟨"u1", "s:d,orderid:A,orderdate:x", "oA1"⟩]⟩ "ALL").2
    (by decide) (by decide) (by decide)
  exact ⟨h1.1, h1.2, h2⟩

lemma storeFinish_events (st : LocalStorage) (s : Scene) (fileSize : Nat)
    (url : String) (printed1 : List String) (lr : LoopResult) :
    (storeFinish st s fileSize url printed1 lr).events
      = NetEvent.head url :: lr.events := by
  unfold storeFinish
  split
  · split
    · split <;> rfl
    · rfl
  · rfl

lemma storeFinish_fs (st : LocalStorage) (s : Scene) (fileSize : Nat)
    (url : String) (printed1 : List String) (lr : LoopResult) :
    (storeFinish st s fileSize url printed1 lr).fs = lr.fs
    ∨ (storeFinish st s fileSize url printed1 lr).fs
      = lr.fs.rename (st.tmp_scene_path s) (st.scene_path s) := by
  unfold storeFinish
  split
  · split
    · split
      · exact Or.inr rfl
      · exact Or.inl rfl
    · exact Or.inl rfl
  · exact Or.inl rfl

/-- C9: an exception raised during a chunked transfer inside the download
loop is caught and its message printed, the inner loop is exited (the
remaining transfer oracle is untouched), and `store` returns normally —
the exception does not propagate to the caller and no rename happens. -/
theorem exception_mid_transfer_caught (st : LocalStorage) (s g : Scene)
    (sv : Server) (msg : String) (n : Nat) (rest : List Transfer)
    (fs : FS) (now : Nat)
    (hns : st.is_stored fs s = false)
    (hfb : st.resumeOffset fs s < (sv.contentAt s.srcurl).length) :
    (st.store s g sv (Transfer.raises msg n :: rest) fs now).finished = true
    ∧ (st.store s g sv (Transfer.raises msg n :: rest) fs now).uncaught
      = false
    ∧ msg ∈ (st.store s g sv (Transfer.raises msg n :: rest) fs now).printed
    ∧ (st.store s g sv (Transfer.raises msg n :: rest) fs now).leftover
      = rest
    ∧ (st.store s g sv (Transfer.raises msg n :: rest) fs now).renamed
      = false := by
  rw [store_eq_finish st s g sv _ fs now hns]
  have hoff : st.resumeOffset (if fs.pathExists (st.directory_path s) then fs
      else fs.makeDir (st.directory_path s)) s = st.resumeOffset fs s := by
    by_cases hdir : fs.pathExists (st.directory_path s) = true
    · rw [if_pos hdir]
    · rw [if_neg hdir, LocalStorage.resumeOffset_eq_getsize,
        FS.getsize_makeDir, ← LocalStorage.resumeOffset_eq_getsize]
  rw [hoff]
  have hloop : storeLoop st g sv (sv.contentAt s.srcurl).length
      (Transfer.raises msg n :: rest) (st.resumeOffset fs s)
      (if fs.pathExists (st.directory_path s) then fs
        else fs.makeDir (st.directory_path s)) now
    = ⟨st.resumeOffset fs s,
       (if fs.pathExists (st.directory_path s) then fs
        else fs.makeDir (st.directory_path s)).appendBytes
          (st.tmp_scene_path g)
          (((sv.contentAt g.srcurl).drop (st.resumeOffset fs s)).take n) now,
       [NetEvent.rangedGet g.srcurl (st.resumeOffset fs s)], [msg], rest,
       true⟩ := by
    simp only [storeLoop]
    rw [if_pos hfb]
    rfl
  rw [hloop]
  simp only [storeFinish]
  rw [if_pos trivial, if_neg (Nat.not_le.mpr hfb)]
  exact ⟨rfl, rfl, by simp, rfl, rfl⟩

/-- Witness for C9: a transfer that raises "connection closed" after one
byte on a fresh 5-byte download. -/
theorem exception_mid_transfer_caught_witness :
    (LocalStorage.store ⟨"base"⟩ ⟨"http://h/o1/f1.tar.gz", "o1", 1, 1⟩
        ⟨"http://h/o1/f1.tar.gz", "o1", 1, 1⟩
        ⟨[("http://h/o1/f1.tar.gz", [10, 11, 12, 13, 14])]⟩
        [Transfer.raises "connection closed" 1] ⟨[], []⟩ 99).uncaught
      = false
    ∧ "connection closed"
      ∈ (LocalStorage.store ⟨"base"⟩ ⟨"http://h/o1/f1.tar.gz", "o1", 1, 1⟩
          ⟨"http://h/o1/f1.tar.gz", "o1", 1, 1⟩
          ⟨[("http://h/o1/f1.tar.gz", [10, 11, 12, 13, 14])]⟩
          [Transfer.raises "connection closed" 1] ⟨[], []⟩ 99).printed
    ∧ (LocalStorage.store ⟨"base"⟩ ⟨"http://h/o1/f1.tar.gz", "o1", 1, 1⟩
        ⟨"http://h/o1/f1.tar.gz", "o1", 1, 1⟩
        ⟨[("http://h/o1/f1.tar.gz", [10, 11, 12, 13, 14])]⟩
        [Transfer.raises "connection closed" 1] ⟨[], []⟩ 99).renamed
      = false := by
  have h := exception_mid_transfer_caught ⟨"base"⟩
    ⟨"http://h/o1/f1.tar.gz", "o1", 1, 1⟩
    ⟨"http://h/o1/f1.tar.gz", "o1", 1, 1⟩
    ⟨[("http://h/o1/f1.tar.gz", [10, 11, 12, 13, 14])]⟩
    "connection closed" 1 [] ⟨[], []⟩ 99 (by decide) (by decide)
  exact ⟨h.2.1, h.2.2.1, h.2.2.2.2⟩

/-- C10: `_download` does not use the scene passed to `store`; it reads
the module-global `scene` (here the explicit `g`), so its ranged GET
always targets the global scene's URL and its writes touch only the
global scene's partial path, whatever scene `s` the enclosing `store`
call received; consequently every ranged GET `store` issues carries the
global scene's URL, and apart from the global partial path and `s`'s own
partial/completed paths (the rename) no file changes. -/
theorem download_uses_global_scene (st : LocalStorage) (s g : Scene)
    (sv : Server) (ts : List Transfer) (fs : FS) (now : Nat) :
    (∀ t fb fs1 now1, (st._download g sv t fb fs1 now1).2.2
        = NetEvent.rangedGet g.srcurl fb)
    ∧ (∀ t fb fs1 now1 p, ¬ p = st.tmp_scene_path g →
        ((st._download g sv t fb fs1 now1).2.1).getFile? p
          = fs1.getFile? p)
    ∧ (∀ u off, NetEvent.rangedGet u off
        ∈ (st.store s g sv ts fs now).events → u = g.srcurl)
    ∧ (∀ p, ¬ p = st.tmp_scene_path g → ¬ p = st.tmp_scene_path s →
        ¬ p = st.scene_path s →
        (st.store s g sv ts fs now).fs.getFile? p = fs.getFile? p) := by
  refine ⟨?_, ?_, ?_, ?_⟩
  · intro t fb fs1 now1
    cases t <;> rfl
  · intro t fb fs1 now1 p hp
    cases t <;> exact FS.getFile_appendBytes_ne _ _ _ _ _ hp
  · intro u off hmem
    by_cases hst : st.is_stored fs s = true
    · rw [store_eq_skip st s g sv ts fs now hst] at hmem
      simp at hmem
    · rw [store_eq_finish st s g sv ts fs now (by simpa using hst),
        storeFinish_events] at hmem
      rcases List.mem_cons.mp hmem with h1 | h2
      · simp at h1
      · obtain ⟨off2, heq⟩ := storeLoop_events st g sv
          (sv.contentAt s.srcurl).length ts _ _ now _ h2
        injection heq with h3 h4
  · intro p h1 h2 h3
    by_cases hst : st.is_stored fs s = true
    · rw [store_eq_skip st s g sv ts fs now hst]
    · rw [store_eq_finish st s g sv ts fs now (by simpa using hst)]
      have hbase : ((if fs.pathExists (st.directory_path s) then fs
          else fs.makeDir (st.directory_path s)) : FS).getFile? p
          = fs.getFile? p := by
        by_cases hdir : fs.pathExists (st.directory_path s) = true
        · rw [if_pos hdir]
        · rw [if_neg hdir]
          rfl
      have hframe := storeLoop_frame st g sv (sv.contentAt s.srcurl).length
        ts (st.resumeOffset (if fs.pathExists (st.directory_path s) then fs
          else fs.makeDir (st.directory_path s)) s)
        (if fs.pathExists (st.directory_path s) then fs
          else fs.makeDir (st.directory_path s)) now p h1
      rcases storeFinish_fs st s (sv.contentAt s.srcurl).length s.srcurl
        ((if fs.pathExists (st.directory_path s) then ([] : List String)
          else ["Created target_directory: " ++ st.directory_path s ++ " "])
         ++ ["Downloading " ++ Scene.name s])
        (storeLoop st g sv (sv.contentAt s.srcurl).length ts
          (st.resumeOffset (if fs.pathExists (st.directory_path s) then fs
            else fs.makeDir (st.directory_path s)) s)
          (if fs.pathExists (st.directory_path s) then fs
            else fs.makeDir (st.directory_path s)) now) with hfs | hfs
      · rw [hfs, hframe, hbase]
      · rw [hfs, FS.getFile_rename_other _ _ _ _ h2 h3, hframe, hbase]

/-- Witness for C10: with distinct scenes `s` and `g`, `_download`'s
ranged GET carries `g`'s URL (not `s`'s) and `store` leaves an unrelated
path untouched. -/
theorem download_uses_global_scene_witness :
    (LocalStorage._download ⟨"base"⟩ ⟨"http://h/o2/g2.tar.gz", "o2", 2, 2⟩
        ⟨[("http://h/o2/g2.tar.gz", [7])]⟩ (Transfer.delivers 1) 0
        ⟨[], []⟩ 99).2.2
      = NetEvent.rangedGet "http://h/o2/g2.tar.gz" 0
    ∧ (LocalStorage.store ⟨"base"⟩ ⟨"http://h/o1/f1.tar.gz", "o1", 1, 1⟩
        ⟨"http://h/o2/g2.tar.gz", "o2", 2, 2⟩
        ⟨[("http://h/o2/g2.tar.gz", [7])]⟩ [Transfer.delivers 1]
        ⟨[("other", ⟨[3], 4⟩)], []⟩ 99).fs.getFile? "other"
      = some ⟨[3], 4⟩ := by
  have h := download_uses_global_scene ⟨"base"⟩
    ⟨"http://h/o1/f1.tar.gz", "o1", 1, 1⟩
    ⟨"http://h/o2/g2.tar.gz", "o2", 2, 2⟩
    ⟨[("http://h/o2/g2.tar.gz", [7])]⟩ [Transfer.delivers 1]
    ⟨[("other", ⟨[3], 4⟩)], []⟩ 99
  refine ⟨h.1 (Transfer.delivers 1) 0 ⟨[], []⟩ 99, ?_⟩
  rw [h.2.2.2 "other" (by decide) (by decide) (by decide)]
  decide

end Espa
